import Mathlib

/-
Verification of mir (a caching Git smart-HTTP mirror server) against its
specification.  The definitions below are a shallow embedding of the final
variant of main.go (src/unnamed/part_005); line numbers in comments refer to
that file.  Go strings are byte slices; the repository only ever handles
ASCII request paths and header values, so a Go string is modelled as
`List Char` and a byte slice as `List Nat` (each element < 256 in intended
use).  External library internals (crypto/sha1, compress/gzip, the LRU cache
container) are modelled abstractly: the digest and the gzip decoder are
parameters, and the LRU container is a finite map, since no claim observes
eviction order.
-/

namespace Mir

/-! ## Go string primitives (strings.HasSuffix / strings.TrimSuffix) -/

/-- Models Go `strings.HasSuffix(s, suffix)`:
`len(s) >= len(suffix) && s[len(s)-len(suffix):] == suffix`. -/
def hasSuffix (s suffix : List Char) : Bool :=
  decide (suffix.length ≤ s.length) && s.drop (s.length - suffix.length) == suffix

/-- Models Go `strings.TrimSuffix(s, suffix)`: removes one trailing copy of
`suffix` when present, otherwise returns `s` unchanged. -/
def trimSuffix (s suffix : List Char) : List Char :=
  if hasSuffix s suffix then s.take (s.length - suffix.length) else s

/-! ## Pkt-line scanner (`splitPktLine`, part_005 lines 354-374)

The split function receives the scanner's buffered bytes `data` and the
`atEOF` flag.  A Go slice also carries capacity: indexing between `len` and
`cap` is legal in Go and yields bytes of the backing array that are not part
of the logical chunk; those slack bytes are the `extra` parameter here.
`dataIsNil` records whether the slice is the nil slice (Go distinguishes a
nil slice from an empty one; line 355 tests `data == nil`).  A Go slice
expression whose bounds are out of range panics; `goSlice` returns `none`
there and `splitPktLine` propagates it as `SplitRes.panic`. -/

/-- Go slice expression `s[lo:hi]` over a slice with logical content `data`
and capacity slack `extra`: defined iff `0 ≤ lo ≤ hi ≤ cap`, and reads from
the backing array (so it may reach into `extra`). -/
def goSlice (data extra : List Nat) (lo hi : Int) : Option (List Nat) :=
  if 0 ≤ lo ∧ lo ≤ hi ∧ hi ≤ (data.length + extra.length : Int) then
    some (((data ++ extra).drop lo.toNat).take (hi - lo).toNat)
  else none

/-- Value of one hexadecimal digit byte, as accepted by Go `strconv.ParseInt`
with base 16 (digits `0-9`, `a-f`, `A-F`). -/
def hexDigitVal (c : Nat) : Option Nat :=
  if 48 ≤ c ∧ c ≤ 57 then some (c - 48)
  else if 97 ≤ c ∧ c ≤ 102 then some (c - 87)
  else if 65 ≤ c ∧ c ≤ 70 then some (c - 55)
  else none

/-- Accumulates hexadecimal digits left to right; `none` on a non-digit. -/
def hexVal : List Nat → Nat → Option Nat
  | [], acc => some acc
  | c :: rest, acc =>
    match hexDigitVal c with
    | some d => hexVal rest (acc * 16 + d)
    | none => none

/-- Models Go `strconv.ParseInt(string(bs), 16, 32)`: an optional leading
sign followed by at least one hex digit, rejecting values outside the signed
32-bit range (Go returns a range error there, which the caller treats the
same as a syntax error).  Underscore separators are only accepted by Go for
base 0, so none are accepted here. -/
def parseIntHex32 (bs : List Nat) : Option Int :=
  match bs with
  | [] => none
  | c :: rest =>
    let signDigits : Bool × List Nat :=
      if c = 45 then (true, rest) else if c = 43 then (false, rest) else (false, bs)
    match signDigits.2 with
    | [] => none
    | ds =>
      match hexVal ds 0 with
      | none => none
      | some v =>
        let i : Int := if signDigits.1 then -(v : Int) else (v : Int)
        if i < -(2 ^ 31) ∨ (2 ^ 31 : Int) ≤ i then none else some i

/-- Outcome of one call to a `bufio.SplitFunc`. -/
inductive SplitRes where
  /-- Go return `(0, nil, nil)`: request more input (or stop at EOF). -/
  | more : SplitRes
  /-- Non-nil error: the scan fails. -/
  | fail : SplitRes
  /-- Go return `(advance, token, nil)`: consume `advance` bytes and yield `token`. -/
  | tok (advance : Nat) (token : List Nat) : SplitRes
  /-- A runtime panic (out-of-range slice expression). -/
  | panic : SplitRes
deriving DecidableEq, Repr

/-- Models `splitPktLine` (part_005 lines 354-374):

* line 355: at EOF with a nil chunk, return `(0, nil, nil)`;
* line 360: parse `string(data[0:4])` as hex (`data[0:4]` panics when the
  slice capacity is below 4);
* line 361: on a parse error, return it (the scan fails);
* lines 365-369: length zero is a flush packet: advance 4, empty token;
* lines 371-373: otherwise advance `n` and yield `data[4:n]`, which panics
  whenever `n < 4` or `n` exceeds the slice capacity. -/
def splitPktLine (data extra : List Nat) (dataIsNil atEOF : Bool) : SplitRes :=
  if atEOF ∧ dataIsNil then .more
  else
    match goSlice data extra 0 4 with
    | none => .panic
    | some hdr =>
      match parseIntHex32 hdr with
      | none => .fail
      | some n =>
        if n = 0 then .tok 4 []
        else
          match goSlice data extra 4 n with
          | none => .panic
          | some payload => .tok n.toNat payload

/-- ASCII byte list of a string literal, for concrete pkt-line inputs. -/
def bytesOf (s : String) : List Nat := s.data.map Char.toNat

/-! ## Repository registry (`server.repository`, part_005 lines 71-93)

A Go `*repository` is a pointer whose identity fields (`path`,
`upstreamURL`, `localDir`) are set once at creation and never written again;
the mutable `lastSynchronized` field and the lock are modelled separately in
the synchronizer section.  Instance identity is therefore modelled as value
equality of the identity record together with the fact, proved below, that a
registry entry is never replaced once created. -/

structure ServerCfg where
  upstream : List Char
  basePath : List Char
deriving DecidableEq, Repr

structure Repository where
  path : List Char
  upstreamURL : List Char
  localDir : List Char
deriving DecidableEq, Repr

/-- Models `filepath.Join(append([]string{s.basePath}, strings.Split(repoPath, "/")...)...)`
(line 87).  `filepath.Clean` normalisation of the joined result (collapsing
duplicate separators etc.) is not modelled; no claim observes the contents
of `localDir`. -/
def joinPath (segs : List (List Char)) : List Char :=
  List.intercalate ['/'] segs

def mkRepository (s : ServerCfg) (repoPath : List Char) : Repository :=
  { path := repoPath
    upstreamURL := s.upstream ++ repoPath
    localDir := joinPath (s.basePath :: repoPath.splitOn '/') }

/-- The Go registry is `map[string]*repository`; an association list with
`List.lookup` models it (insertion order is unobservable through lookups). -/
abbrev RegistryMap := List (List Char × Repository)

/-- Models `server.repository` (lines 71-93): strip one trailing `.git`,
return the existing entry on a hit, otherwise create and insert one. -/
def serverRepository (s : ServerCfg) (m : RegistryMap) (repoPath0 : List Char) :
    Repository × RegistryMap :=
  let repoPath := trimSuffix repoPath0 ".git".data
  match m.lookup repoPath with
  | some repo => (repo, m)
  | none =>
    let repo := mkRepository s repoPath
    (repo, (repoPath, repo) :: m)

/-- Folds a sequence of `server.repository` calls over the registry,
returning the final registry state. -/
def resolveSeq (s : ServerCfg) (m : RegistryMap) : List (List Char) → RegistryMap
  | [] => m
  | p :: ps => resolveSeq s (serverRepository s m p).2 ps

abbrev CacheMap := List (List Nat × List Nat)

/-- Models `packCache.key` (lines 100-103):
`repo.path + "\000" + string(reqDigest[:])` where
`reqDigest = sha1.Sum(clientRequest)`. -/
def packCacheKey (digest : List Nat → List Nat) (repoPath : List Char)
    (clientRequest : List Nat) : List Nat :=
  repoPath.map Char.toNat ++ [0] ++ digest clientRequest

/-- Models `packCache.Get` (lines 105-115): `nil` on a miss is `none`. -/
def packCacheGet (digest : List Nat → List Nat) (c : CacheMap) (repoPath : List Char)
    (clientRequest : List Nat) : Option (List Nat) :=
  c.lookup (packCacheKey digest repoPath clientRequest)

/-- Models `packCache.Add` (lines 117-123). -/
def packCacheAdd (digest : List Nat → List Nat) (c : CacheMap) (repoPath : List Char)
    (clientRequest : List Nat) (data : List Nat) : CacheMap :=
  (packCacheKey digest repoPath clientRequest, data) :: c

/-! ## Upload-pack handler core (`server.uploadPack`, part_005 lines 237-272)

This models the cache-enabled path of `uploadPack` after the synchronizer
has succeeded and the request body has been read into `clientRequest`
(failures of those earlier steps answer 500 before the cache is consulted).
The capability-logging step (lines 238-249) only writes to the logger and is
omitted here; the pkt-line scanner it invokes is analysed on its own above.
`childStdout` is the outcome of `git upload-pack --stateless-rpc .` with the
request bytes on stdin: `some out` when `run()` returns nil with captured
stdout `out`, `none` when it returns an error (lines 262-268). -/

structure UploadPackOut where
  /-- Bytes written to the HTTP response body. -/
  body : List Nat
  cache : CacheMap
  packCacheHitDelta : Nat
  spawnedChild : Bool
deriving DecidableEq, Repr

def uploadPack (digest : List Nat → List Nat) (cache : CacheMap) (repo : Repository)
    (clientRequest : List Nat) (childStdout : Option (List Nat)) : UploadPackOut :=
  match packCacheGet digest cache repo.path clientRequest with
  | some packResponse =>
    -- lines 254-258: hit: count it and write the stored bytes, nothing else
    ⟨packResponse, cache, 1, false⟩
  | none =>
    match childStdout with
    | none =>
      -- lines 265-268: child failed: log and return, no insert, no body
      ⟨[], cache, 0, true⟩
    | some respBody =>
      -- lines 270-271: insert the captured bytes, then copy them to the client
      ⟨respBody, packCacheAdd digest cache repo.path clientRequest respBody, 0, true⟩

/-! ## Repository synchronizer (`server.synchronizeCache`, part_005 lines 127-168)

The function runs under the repository's writer lock; its observable
behaviour is a function of the clock, the repository's `lastSynchronized`
field, and the outcomes of its filesystem and child-process calls, which are
inputs here.  `now` is the `time.Now()` of the freshness check (line 131)
and `nowAfter` the later `time.Now()` of the success assignments (lines 148
and 163); time is modelled as `Nat`.  Log statements are omitted. -/

/-- Outcome of `os.Stat(repo.localDir)` (line 137), split the way the code
inspects it: a not-exist error, any other error, a directory, or an existing
non-directory. -/
inductive StatRes where
  | notExist : StatRes
  | statErr : StatRes
  | isDir : StatRes
  | notDir : StatRes
deriving DecidableEq, Repr

/-- Filesystem and child-process operations `synchronizeCache` can perform,
in program order. -/
inductive SyncEffect where
  | statDir : SyncEffect
  | mkdirAll : SyncEffect
  | spawnClone : SyncEffect
  | spawnRemoteUpdate : SyncEffect
  | removeDir : SyncEffect
deriving DecidableEq, Repr

/-- The distinct non-nil errors `synchronizeCache` can return. -/
inductive SyncErr where
  | mkdirFailed : SyncErr
  | statFailed : SyncErr
  | cloneFailed : SyncErr
  | updateFailed : SyncErr
  | notADirectory : SyncErr
deriving DecidableEq, Repr

/-- Environment outcomes for one `synchronizeCache` call: the stat result
and whether `os.MkdirAll`, the clone child and the remote-update child
succeed (only the ones actually reached matter). -/
structure SyncEnv where
  statRes : StatRes
  mkdirOk : Bool
  cloneOk : Bool
  updateOk : Bool
deriving DecidableEq, Repr

structure SyncOut where
  /-- Returned error; `none` models a nil error return. -/
  result : Option SyncErr
  lastSynchronized : Nat
  syncSkippedDelta : Nat
  effects : List SyncEffect
deriving DecidableEq, Repr

/-- Models `server.synchronizeCache` (lines 127-168):

* lines 131-135: inside the refresh window (`time.Now().Before(...)` is a
  strict comparison): bump `syncSkipped`, return nil, touch nothing;
* lines 137-153: stat fails: if not-exist, `MkdirAll` then clone; on clone
  success set `lastSynchronized`, on clone failure `os.Remove` the local
  directory (its own error is ignored) and return the clone error; any
  other stat error is returned as is;
* lines 156-165: a directory: run `git remote update`; set
  `lastSynchronized` only on success;
* line 167: exists but not a directory: a formatted error. -/
def synchronizeCache (refsFreshFor lastSynchronized now nowAfter : Nat)
    (env : SyncEnv) : SyncOut :=
  if now < lastSynchronized + refsFreshFor then
    ⟨none, lastSynchronized, 1, []⟩
  else
    match env.statRes with
    | .notExist =>
      if env.mkdirOk = false then
        ⟨some .mkdirFailed, lastSynchronized, 0, [.statDir, .mkdirAll]⟩
      else if env.cloneOk then
        ⟨none, nowAfter, 0, [.statDir, .mkdirAll, .spawnClone]⟩
      else
        ⟨some .cloneFailed, lastSynchronized, 0,
          [.statDir, .mkdirAll, .spawnClone, .removeDir]⟩
    | .statErr => ⟨some .statFailed, lastSynchronized, 0, [.statDir]⟩
    | .isDir =>
      if env.updateOk then
        ⟨none, nowAfter, 0, [.statDir, .spawnRemoteUpdate]⟩
      else
        ⟨some .updateFailed, lastSynchronized, 0, [.statDir, .spawnRemoteUpdate]⟩
    | .notDir => ⟨some .notADirectory, lastSynchronized, 0, [.statDir]⟩

structure HttpRequest where
  method : List Char
  /-- Value of `req.URL.Path`; for a server request it always starts with `/`. -/
  path : List Char
  /-- Value of `req.URL.Query().Get("service")`, empty when absent. -/
  serviceQuery : List Char
  /-- Value of `req.Header.Get("Content-Encoding")`, empty when absent. -/
  contentEncoding : List Char
  rawBody : List Nat
deriving DecidableEq, Repr

inductive Route where
  | advertiseRefsRoute (repoPath : List Char) : Route
  | uploadPackRoute (repoPath : List Char) (gzipBody : Bool) : Route
  | debugVarsRoute : Route
  | notImplementedRoute (status : Nat) (message : List Char) : Route
deriving DecidableEq, Repr

/-- Models the dispatch of `ServeHTTP` (lines 279-306):

* line 279: path ends in `/info/refs` and `service=git-upload-pack`
  (the method is NOT checked): ref discovery, with
  `repoPath = TrimSuffix(path[1:], "/info/refs")`;
* line 285: method POST and path ends in `/git-upload-pack`: upload-pack,
  noting whether `Content-Encoding: gzip` applies (line 291);
* line 302: method GET and path exactly `/debug/vars`: expvar handler;
* line 305: otherwise `http.Error(w, "Not Implemented", 501)`. -/
def route (req : HttpRequest) : Route :=
  if hasSuffix req.path "/info/refs".data ∧ req.serviceQuery = "git-upload-pack".data then
    .advertiseRefsRoute (trimSuffix (req.path.drop 1) "/info/refs".data)
  else if req.method = "POST".data ∧ hasSuffix req.path "/git-upload-pack".data then
    .uploadPackRoute (trimSuffix (req.path.drop 1) "/git-upload-pack".data)
      (req.contentEncoding = "gzip".data)
  else if req.method = "GET".data ∧ req.path = "/debug/vars".data then
    .debugVarsRoute
  else
    .notImplementedRoute 501 "Not Implemented".data

/-- C2: when the freshness check's `now` is strictly before
`lastSynchronized + refsFreshFor`, `synchronizeCache` bumps the sync-skipped
counter by one, performs no filesystem operation, spawns no child process,
leaves the timestamp alone and returns success. -/
theorem sync_skips_within_window (refsFreshFor last now nowAfter : Nat)
    (env : SyncEnv) (h : now < last + refsFreshFor) :
    synchronizeCache refsFreshFor last now nowAfter env = ⟨none, last, 1, []⟩ := by
  simp [synchronizeCache, h]

theorem sync_skips_within_window_witness :
    3 < 2 + 5
    ∧ synchronizeCache 5 2 3 9 ⟨.isDir, true, true, true⟩ = ⟨none, 2, 1, []⟩ :=
  ⟨by decide, sync_skips_within_window 5 2 3 9 ⟨.isDir, true, true, true⟩ (by decide)⟩

/-- C3: over any single `synchronizeCache` call, the `lastSynchronized`
timestamp is written only on the success path of a clone or remote update
(where it becomes the later clock reading `nowAfter`), is untouched on every
failure, and — since each clock reading is at least the previously stored
timestamp — never decreases. -/
theorem sync_lastSynchronized_monotone (refsFreshFor last now nowAfter : Nat)
    (env : SyncEnv) (hclock : last ≤ nowAfter) :
    ((synchronizeCache refsFreshFor last now nowAfter env).result.isSome →
        (synchronizeCache refsFreshFor last now nowAfter env).lastSynchronized = last)
    ∧ ((synchronizeCache refsFreshFor last now nowAfter env).lastSynchronized = last
        ∨ ((synchronizeCache refsFreshFor last now nowAfter env).lastSynchronized = nowAfter
            ∧ (synchronizeCache refsFreshFor last now nowAfter env).result = none
            ∧ (SyncEffect.spawnClone ∈ (synchronizeCache refsFreshFor last now nowAfter env).effects
                ∨ SyncEffect.spawnRemoteUpdate
                    ∈ (synchronizeCache refsFreshFor last now nowAfter env).effects)))
    ∧ last ≤ (synchronizeCache refsFreshFor last now nowAfter env).lastSynchronized := by
  rcases env with ⟨sr, mk, cl, up⟩
  cases sr <;> simp [synchronizeCache] <;> split_ifs <;> simp_all

theorem sync_lastSynchronized_monotone_witness :
    2 ≤ 9
    ∧ (((synchronizeCache 5 2 8 9 ⟨.isDir, true, true, false⟩).result.isSome →
          (synchronizeCache 5 2 8 9 ⟨.isDir, true, true, false⟩).lastSynchronized = 2)
        ∧ ((synchronizeCache 5 2 8 9 ⟨.isDir, true, true, false⟩).lastSynchronized = 2
            ∨ ((synchronizeCache 5 2 8 9 ⟨.isDir, true, true, false⟩).lastSynchronized = 9
                ∧ (synchronizeCache 5 2 8 9 ⟨.isDir, true, true, false⟩).result = none
                ∧ (SyncEffect.spawnClone
                      ∈ (synchronizeCache 5 2 8 9 ⟨.isDir, true, true, false⟩).effects
                    ∨ SyncEffect.spawnRemoteUpdate
                        ∈ (synchronizeCache 5 2 8 9 ⟨.isDir, true, true, false⟩).effects)))
        ∧ 2 ≤ (synchronizeCache 5 2 8 9 ⟨.isDir, true, true, false⟩).lastSynchronized) :=
  ⟨by decide, sync_lastSynchronized_monotone 5 2 8 9 ⟨.isDir, true, true, false⟩ (by decide)⟩

/-- Looking a request up right after `packCache.Add` stored it returns the
stored bytes. -/
theorem packCacheGet_add (digest : List Nat → List Nat) (c : CacheMap)
    (repoPath : List Char) (clientRequest data : List Nat) :
    packCacheGet digest (packCacheAdd digest c repoPath clientRequest data)
      repoPath clientRequest = some data := by
  simp [packCacheGet, packCacheAdd, List.lookup]

/-- C1: on a miss with a successful child, the body served to the client is
exactly the child's captured output, and a later identical request hits the
cache and is served exactly those stored bytes — same record, counter bumped
by one, no child spawned, no extra bytes spliced in. -/
theorem uploadPack_hit_is_stored_bytes (digest : List Nat → List Nat)
    (cache : CacheMap) (repo : Repository) (clientRequest out : List Nat)
    (childStdout2 : Option (List Nat))
    (hmiss : packCacheGet digest cache repo.path clientRequest = none) :
    (uploadPack digest cache repo clientRequest (some out)).body = out
    ∧ uploadPack digest (uploadPack digest cache repo clientRequest (some out)).cache
        repo clientRequest childStdout2
        = ⟨out, (uploadPack digest cache repo clientRequest (some out)).cache, 1, false⟩ := by
  simp [uploadPack, hmiss, packCacheGet_add]

theorem uploadPack_hit_is_stored_bytes_witness :
    packCacheGet id [] (mkRepository ⟨"u".data, "b".data⟩ "foo".data).path [9] = none
    ∧ ((uploadPack id [] (mkRepository ⟨"u".data, "b".data⟩ "foo".data) [9]
          (some [7, 7])).body = [7, 7]
        ∧ uploadPack id
            (uploadPack id [] (mkRepository ⟨"u".data, "b".data⟩ "foo".data) [9]
              (some [7, 7])).cache
            (mkRepository ⟨"u".data, "b".data⟩ "foo".data) [9] none
            = ⟨[7, 7],
                (uploadPack id [] (mkRepository ⟨"u".data, "b".data⟩ "foo".data) [9]
                  (some [7, 7])).cache, 1, false⟩) :=
  ⟨rfl,
    uploadPack_hit_is_stored_bytes id [] (mkRepository ⟨"u".data, "b".data⟩ "foo".data)
      [9] [7, 7] none rfl⟩

/-- C10: on a miss whose `git upload-pack` child fails, the handler returns
with the cache exactly as it was — no entry inserted — and with no response
body bytes written. -/
theorem uploadPack_child_failure_preserves_cache (digest : List Nat → List Nat)
    (cache : CacheMap) (repo : Repository) (clientRequest : List Nat)
    (hmiss : packCacheGet digest cache repo.path clientRequest = none) :
    uploadPack digest cache repo clientRequest none = ⟨[], cache, 0, true⟩ := by
  simp [uploadPack, hmiss]

theorem uploadPack_child_failure_preserves_cache_witness :
    packCacheGet id [] (mkRepository ⟨"u".data, "b".data⟩ "foo".data).path [9] = none
    ∧ uploadPack id [] (mkRepository ⟨"u".data, "b".data⟩ "foo".data) [9] none
        = ⟨[], [], 0, true⟩ :=
  ⟨rfl,
    uploadPack_child_failure_preserves_cache id []
      (mkRepository ⟨"u".data, "b".data⟩ "foo".data) [9] rfl⟩

/-- C7 counterexample: `PUT /foo/info/refs?service=git-upload-pack` is not a
GET ref-advertisement, not a POST upload-pack and not `GET /debug/vars`, so
the claim demands a 501 — but the dispatcher never checks the method on the
ref-advertisement branch (line 279) and routes it to `advertiseRefs`. -/
theorem route_put_info_refs_counterexample :
    route ⟨"PUT".data, "/foo/info/refs".data, "git-upload-pack".data, [], []⟩
        = Route.advertiseRefsRoute "foo".data
    ∧ route ⟨"PUT".data, "/foo/info/refs".data, "git-upload-pack".data, [], []⟩
        ≠ Route.notImplementedRoute 501 "Not Implemented".data := by
  decide

/-- C7 amended: every request that does not match the (method-agnostic)
ref-advertisement pattern, is not a POST to a path ending `/git-upload-pack`,
and is not a GET of `/debug/vars`, is answered
`http.Error(w, "Not Implemented", 501)`. -/
theorem route_otherwise_not_implemented (req : HttpRequest)
    (h1 : ¬ (hasSuffix req.path "/info/refs".data
              ∧ req.serviceQuery = "git-upload-pack".data))
    (h2 : ¬ (req.method = "POST".data ∧ hasSuffix req.path "/git-upload-pack".data))
    (h3 : ¬ (req.method = "GET".data ∧ req.path = "/debug/vars".data)) :
    route req = Route.notImplementedRoute 501 "Not Implemented".data := by
  simp only [route, h1, h2, h3, if_false, if_neg]

theorem route_otherwise_not_implemented_witness :
    ¬ (hasSuffix "/unknown".data "/info/refs".data ∧ ([] : List Char) = "git-upload-pack".data)
    ∧ ¬ ("GET".data = "POST".data ∧ hasSuffix "/unknown".data "/git-upload-pack".data)
    ∧ ¬ ("GET".data = "GET".data ∧ "/unknown".data = "/debug/vars".data)
    ∧ route ⟨"GET".data, "/unknown".data, [], [], []⟩
        = Route.notImplementedRoute 501 "Not Implemented".data :=
  ⟨by decide, by decide, by decide,
    route_otherwise_not_implemented ⟨"GET".data, "/unknown".data, [], [], []⟩
      (by decide) (by decide) (by decide)⟩

/-- Stripping a suffix that was just appended recovers the original list. -/
theorem trimSuffix_append (p suf : List Char) : trimSuffix (p ++ suf) suf = p := by
  have hlen : (p ++ suf).length - suf.length = p.length := by simp
  simp [trimSuffix, hasSuffix, hlen, List.drop_left, List.take_left]

/-- If `s` does not end in `suf`, `trimSuffix` leaves it unchanged. -/
theorem trimSuffix_no_suffix (s suf : List Char) (h : hasSuffix s suf = false) :
    trimSuffix s suf = s := by
  simp [trimSuffix, h]

/-- After any `server.repository` call, the registry holds the returned
handle under the logical path of the requested path. -/
theorem lookup_serverRepository_self (s : ServerCfg) (m : RegistryMap) (p : List Char) :
    ((serverRepository s m p).2).lookup (trimSuffix p ".git".data)
      = some (serverRepository s m p).1 := by
  unfold serverRepository
  cases h : m.lookup (trimSuffix p ".git".data) <;> simp [h, List.lookup]

/-- A `server.repository` call never replaces an existing registry entry. -/
theorem lookup_preserved (s : ServerCfg) (m : RegistryMap) (q k : List Char)
    (r : Repository) (h : m.lookup k = some r) :
    ((serverRepository s m q).2).lookup k = some r := by
  unfold serverRepository
  cases hq : m.lookup (trimSuffix q ".git".data) with
  | some repo => simpa [hq] using h
  | none =>
    by_cases hk : k = trimSuffix q ".git".data
    · rw [← hk] at hq
      rw [hq] at h
      exact absurd h (by simp)
    · have hbeq : (k == trimSuffix q ".git".data) = false :=
        beq_eq_false_iff_ne.mpr hk
      simp [hq, List.lookup, hbeq, h]

/-- Registry entries persist across any sequence of `server.repository`
calls. -/
theorem lookup_resolveSeq_preserved (s : ServerCfg) (ps : List (List Char))
    (m : RegistryMap) (k : List Char) (r : Repository) (h : m.lookup k = some r) :
    (resolveSeq s m ps).lookup k = some r := by
  induction ps generalizing m with
  | nil => simpa [resolveSeq] using h
  | cons p ps ih =>
    simpa [resolveSeq] using ih _ (lookup_preserved s m p k r h)

/-- When the registry already holds the logical path, `server.repository`
returns that entry and leaves the registry unchanged. -/
theorem serverRepository_of_lookup (s : ServerCfg) (m : RegistryMap) (q : List Char)
    (r : Repository) (h : m.lookup (trimSuffix q ".git".data) = some r) :
    serverRepository s m q = (r, m) := by
  unfold serverRepository
  simp [h]

/-- C8 counterexample: the code strips exactly one trailing `.git`
(line 79), so for the request path `a.git` — a path that itself ends in
`.git` — resolving it and resolving it with `.git` appended yield handles
with different logical paths, refuting the claim's universal
quantification over request paths. -/
theorem repository_trailing_git_counterexample :
    (serverRepository ⟨"u".data, "b".data⟩ [] ("a.git".data ++ ".git".data)).1
      ≠ (serverRepository ⟨"u".data, "b".data⟩ [] "a.git".data).1 := by
  decide

/-- C8 amended: for every request path `p` that does not itself end in
`.git`, resolving `p` and resolving `p ++ ".git"` behave identically (same
handle, same registry); and once a path has been resolved, resolving it
again after any further sequence of resolutions returns the identical
repository instance. -/
theorem repository_identity (s : ServerCfg) (m : RegistryMap) (p q : List Char)
    (ps : List (List Char)) (hp : hasSuffix p ".git".data = false) :
    serverRepository s m (p ++ ".git".data) = serverRepository s m p
    ∧ (serverRepository s (resolveSeq s (serverRepository s m q).2 ps) q).1
        = (serverRepository s m q).1 := by
  constructor
  · have h1 : trimSuffix (p ++ ".git".data) ".git".data = p := trimSuffix_append p _
    have h2 : trimSuffix p ".git".data = p := trimSuffix_no_suffix p _ hp
    unfold serverRepository
    rw [h1, h2]
  · have h1 := lookup_serverRepository_self s m q
    have h2 := lookup_resolveSeq_preserved s ps _ _ _ h1
    rw [serverRepository_of_lookup s _ q _ h2]

theorem repository_identity_witness :
    hasSuffix "foo/bar".data ".git".data = false
    ∧ (serverRepository ⟨"u".data, "b".data⟩ [] ("foo/bar".data ++ ".git".data)
          = serverRepository ⟨"u".data, "b".data⟩ [] "foo/bar".data
        ∧ (serverRepository ⟨"u".data, "b".data⟩
              (resolveSeq ⟨"u".data, "b".data⟩
                (serverRepository ⟨"u".data, "b".data⟩ [] "x".data).2 ["y".data])
              "x".data).1
            = (serverRepository ⟨"u".data, "b".data⟩ [] "x".data).1) :=
  ⟨by decide,
    repository_identity ⟨"u".data, "b".data⟩ [] "foo/bar".data "x".data ["y".data]
      (by decide)⟩

/-- C6 counterexample: on the frame `"0001"` the hex length prefix parses to
the nonzero length 1, so the claim demands a yielded token with advance 1 —
but `token = data[4:1]` is an out-of-range slice expression and the call
panics instead of yielding anything. -/
theorem splitPktLine_declared_length_one_counterexample :
    splitPktLine (bytesOf "0001") [] false false = .panic := by
  decide

/-- C6 amended: on a chunk holding at least the four header bytes, if the
hex prefix parses to zero the scanner advances 4 and yields an empty token;
if it parses to a nonzero `n` that is at least 4 and within the chunk, it
advances `n` and yields the `n - 4` payload bytes following the header; and
if the prefix is not valid hex the scan fails with an error.  (A nonzero
parsed length below 4, or beyond the chunk, panics instead — see the
counterexample.) -/
theorem splitPktLine_frames (data extra : List Nat) (atEOF : Bool) (n : Nat)
    (hlen : 4 ≤ data.length) :
    (parseIntHex32 (data.take 4) = some 0 →
        splitPktLine data extra false atEOF = .tok 4 [])
    ∧ (parseIntHex32 (data.take 4) = some (n : Int) → 4 ≤ n → n ≤ data.length →
        splitPktLine data extra false atEOF = .tok n ((data.drop 4).take (n - 4)))
    ∧ (parseIntHex32 (data.take 4) = none →
        splitPktLine data extra false atEOF = .fail) := by
  have hcond0 : (0:Int) ≤ 0 ∧ (0:Int) ≤ 4
      ∧ (4:Int) ≤ (data.length : Int) + (extra.length : Int) := by
    omega
  have htake : (data ++ extra).take 4 = data.take 4 := by
    rw [List.take_append_eq_append_take, Nat.sub_eq_zero_of_le hlen]
    simp
  have hhdr : goSlice data extra 0 4 = some (data.take 4) := by
    simp only [goSlice, if_pos hcond0]
    have h2 : Int.toNat 4 = 4 := rfl
    norm_num [h2, htake]
  refine ⟨?_, ?_, ?_⟩
  · intro hparse
    simp [splitPktLine, hhdr, hparse]
  · intro hparse h4 hn
    have hcondn : (0:Int) ≤ 4 ∧ (4:Int) ≤ (n : Int)
        ∧ (n : Int) ≤ (data.length : Int) + (extra.length : Int) := by
      omega
    have hdropA : (data ++ extra).drop 4 = data.drop 4 ++ extra := by
      rw [List.drop_append_eq_append_drop, Nat.sub_eq_zero_of_le hlen]
      simp
    have htakeP : (data.drop 4 ++ extra).take (n - 4) = (data.drop 4).take (n - 4) := by
      rw [List.take_append_eq_append_take]
      have h0 : n - 4 - (data.drop 4).length = 0 := by
        rw [List.length_drop]
        omega
      rw [h0]
      simp
    have hpay : goSlice data extra 4 (n : Int) = some ((data.drop 4).take (n - 4)) := by
      simp only [goSlice, if_pos hcondn]
      have h1 : ((4:Int)).toNat = 4 := rfl
      have h2 : ((n : Int) - 4).toNat = n - 4 := by omega
      rw [h1, h2, hdropA, htakeP]
    have hne : (n : Int) ≠ 0 := by omega
    simp [splitPktLine, hhdr, hparse, hne, hpay]
  · intro hparse
    simp [splitPktLine, hhdr, hparse]

theorem splitPktLine_frames_witness :
    4 ≤ (bytesOf "0009hello").length
    ∧ ((parseIntHex32 ((bytesOf "0009hello").take 4) = some 0 →
          splitPktLine (bytesOf "0009hello") [] false false = .tok 4 [])
        ∧ (parseIntHex32 ((bytesOf "0009hello").take 4) = some ((9 : Nat) : Int) →
            4 ≤ 9 → 9 ≤ (bytesOf "0009hello").length →
            splitPktLine (bytesOf "0009hello") [] false false
              = .tok 9 (((bytesOf "0009hello").drop 4).take (9 - 4)))
        ∧ (parseIntHex32 ((bytesOf "0009hello").take 4) = none →
            splitPktLine (bytesOf "0009hello") [] false false = .fail)) :=
  ⟨by decide, splitPktLine_frames (bytesOf "0009hello") [] false 9 (by decide)⟩

/-- C9: the split function is not total.  On the chunk `"0002xy"` with
`atEOF = false`, the hex prefix parses to the nonzero length 2 and the code
evaluates `data[4:2]`, an out-of-range slice expression (low bound above
high bound), so the call panics instead of reporting an error, requesting
more input, or yielding a token. -/
theorem splitPktLine_panics_on_malformed_length :
    splitPktLine (bytesOf "0002xy") [] false false = .panic := by
  decide

end Mir
